import Mathlib

/-!
Verification of the auth backend (token/session lifecycle and permission
resolution) against its specification.  The Python repository's data rows are
embedded as Lean structures, its SQL queries as list operations over an
explicit database state, and its exception control flow as `Except` values.
Timestamps are epoch seconds (`Int`), UUIDs are strings, and database ids are
integers, matching the column types.  Columns never read by the embedded
operations (emails, display names, password hashes, audit timestamps) are
omitted from the row projections.
-/

namespace AuthSys

/-- Python exception kinds that the embedded operations can surface.
`httpException n` stands for `starlette HTTPException(status_code := n)`;
`validationError` is pydantic's `ValidationError`; `valueError` and
`attributeError` are the builtin exceptions of those names. -/
inductive PyExc where
  | tokenVerificationError
  | validationError
  | valueError
  | attributeError
  | userSessionNotFound
  | tokenNotFound
  | permissionNotFound
  | insufficientPermissions
  | adminDeletion
  | userNotFound
  | httpException (status : Nat)
deriving Repr, DecidableEq

/-- Row of `user_roles` (src/db/models.py, UserRoleEntity). -/
structure UserRoleEntity where
  id : Int
  name : String
deriving Repr, DecidableEq

/-- Row of `users` (src/db/models.py, UserEntity). -/
structure UserEntity where
  id : Int
  is_active : Bool
  role_id : Int
deriving Repr, DecidableEq

/-- Row of `resource_types` (src/db/models.py, ResourceTypeEntity). -/
structure ResourceTypeEntity where
  id : Int
  name : String
deriving Repr, DecidableEq

/-- Row of `permissions` (src/db/models.py, PermissionEntity). -/
structure PermissionEntity where
  id : Int
  name : String
  resource_type_id : Int
  action : String
deriving Repr, DecidableEq

/-- Row of `role_permissions` (src/db/models.py, RolePermissionEntity). -/
structure RolePermissionEntity where
  role_id : Int
  permission_id : Int
deriving Repr, DecidableEq

/-- Row of `user_permissions` (src/db/models.py, UserPermissionEntity). -/
structure UserPermissionEntity where
  user_id : Int
  permission_id : Int
  granted : Bool
  granted_by : Int
deriving Repr, DecidableEq

/-- Row of `user_sessions` (src/db/models.py, UserSessionEntity). -/
structure UserSessionEntity where
  id : String
  user_id : Int
  is_revoked : Bool
  expires_at : Int
deriving Repr, DecidableEq

/-- Row of `refresh_tokens` (src/db/models.py, RefreshTokenEntity). -/
structure RefreshTokenEntity where
  session_id : String
  token_hash : String
  expires_at : Int
  is_revoked : Bool
deriving Repr, DecidableEq

/-- Snapshot of the relational store the repositories query. -/
structure DB where
  users : List UserEntity
  roles : List UserRoleEntity
  resourceTypes : List ResourceTypeEntity
  permissions : List PermissionEntity
  rolePermissions : List RolePermissionEntity
  userPermissions : List UserPermissionEntity
  sessions : List UserSessionEntity
  refreshTokens : List RefreshTokenEntity
deriving Repr, DecidableEq

/-- Conjunctive WHERE clause of `RefreshTokenRepository.get_active_for_refresh`
(src/auth/repositories/refresh_token_repo.py:88-96): hash match, token not
revoked, token unexpired, joined session not revoked and unexpired.  The inner
join on `RefreshTokenEntity.session` is the lookup of the owning session row;
a token without a session row produces no joined row. -/
def refreshGate (sessions : List UserSessionEntity) (now : Int) (token_hash : String)
    (t : RefreshTokenEntity) : Bool :=
  t.token_hash == token_hash && !t.is_revoked && now < t.expires_at &&
    match sessions.find? (fun s => s.id == t.session_id) with
    | some s => !s.is_revoked && now < s.expires_at
    | none => false

namespace RefreshTokenRepository

/-- Embedding of `RefreshTokenRepository.get_active_for_refresh`
(src/auth/repositories/refresh_token_repo.py:54-101): single SELECT under the
conjunctive gate; `scalar` returning no row raises `TokenNotFound`. -/
def get_active_for_refresh (db : DB) (now : Int) (token_hash : String) :
    Except PyExc RefreshTokenEntity :=
  match db.refreshTokens.find? (refreshGate db.sessions now token_hash) with
  | some t => .ok t
  | none => .error .tokenNotFound

/-- Embedding of `RefreshTokenRepository.revoke`
(src/auth/repositories/refresh_token_repo.py:103-127): UPDATE setting
`is_revoked` on rows matching the hash that are not revoked and not expired;
returns `rowcount > 0` (PostgreSQL reports the number of matched rows). -/
def revoke (db : DB) (now : Int) (token_hash : String) : Bool × DB :=
  (decide (0 < db.refreshTokens.countP
      (fun t => t.token_hash == token_hash && !t.is_revoked && now < t.expires_at)),
   { db with refreshTokens := db.refreshTokens.map (fun t =>
      if t.token_hash == token_hash && !t.is_revoked && now < t.expires_at then
        { t with is_revoked := true }
      else t) })

end RefreshTokenRepository

namespace UserSessionRepository

/-- Embedding of `UserSessionRepository.get_active`
(src/auth/repositories/user_session_repo.py:47-76): SELECT by id, not revoked,
unexpired; no row raises `UserSessionNotFound`. -/
def get_active (db : DB) (now : Int) (session_id : String) :
    Except PyExc UserSessionEntity :=
  match db.sessions.find? (fun s =>
      s.id == session_id && !s.is_revoked && now < s.expires_at) with
  | some s => .ok s
  | none => .error .userSessionNotFound

/-- Embedding of `UserSessionRepository.revoke`
(src/auth/repositories/user_session_repo.py:78-95): UPDATE setting
`is_revoked = true` on every row whose id matches — the WHERE clause has no
`is_revoked` filter — returning `rowcount > 0`, where PostgreSQL's rowcount
counts matched rows (an already-revoked row still counts). -/
def revoke (db : DB) (session_id : String) : Bool × DB :=
  (decide (0 < db.sessions.countP (fun s => s.id == session_id)),
   { db with sessions := db.sessions.map (fun s =>
      if s.id == session_id then { s with is_revoked := true } else s) })

end UserSessionRepository

end AuthSys

namespace AuthSys

/-- JSON scalar values appearing in JWT claim sets. -/
inductive JsonValue where
  | str (s : String)
  | int (n : Int)
  | bool (b : Bool)
  | null
deriving Repr, DecidableEq

/-- Claim set of a JWT, as the dict `jose.jwt.decode` returns. -/
abbrev Claims := List (String × JsonValue)

/-- Embedding of `TokenPurpose` (src/token_manager.py:26-33). -/
inductive TokenPurpose where
  | access
  | refresh
  | email_confirmation
deriving Repr, DecidableEq

/-- String value of a `TokenPurpose` member (it is a `str` Enum). -/
def TokenPurpose.value : TokenPurpose → String
  | .access => "access"
  | .refresh => "refresh"
  | .email_confirmation => "email_confirmation"

/-- Embedding of the pydantic model `TokenPayload` (src/token_manager.py:36-56).
Optional fields (`OptionalStr`) default to `None`. -/
structure TokenPayload where
  sub : String
  sid : Option String
  iat : Int
  exp : Int
  jti : Option String
  role : Option String
  purpose : TokenPurpose
  fingerprint : Option String
deriving Repr, DecidableEq

/-- Embedding of `TokenPayload.to_dict`, i.e. `model_dump(exclude_none=True)`:
fields in declaration order, `None` fields omitted, the purpose enum
serialized as its string value. -/
def TokenPayload.to_dict (p : TokenPayload) : Claims :=
  [("sub", JsonValue.str p.sub)]
    ++ (match p.sid with | some s => [("sid", JsonValue.str s)] | none => [])
    ++ [("iat", JsonValue.int p.iat), ("exp", JsonValue.int p.exp)]
    ++ (match p.jti with | some s => [("jti", JsonValue.str s)] | none => [])
    ++ (match p.role with | some s => [("role", JsonValue.str s)] | none => [])
    ++ [("purpose", JsonValue.str p.purpose.value)]
    ++ (match p.fingerprint with | some s => [("fingerprint", JsonValue.str s)] | none => [])

/-- Wire form of a token string presented to the codec: either a string that is
not a structurally valid JWT, or a well-formed JWT carrying a claim set and
the key it was signed with (signature validity is modelled as key equality). -/
inductive Wire where
  | malformed (s : String)
  | signed (claims : Claims) (key : String)
deriving Repr, DecidableEq

/-- ASCII lowering of one character, the character-level step of Python's
`str.lower()` on the ASCII identifiers this system stores. -/
def lowerChar (c : Char) : Char :=
  if 'A' ≤ c ∧ c ≤ 'Z' then Char.ofNat (c.toNat + 32) else c

/-- Model of Python `str.lower()` (the stored names are ASCII). -/
def pyLower (s : String) : String :=
  ⟨s.data.map lowerChar⟩

/-- Value of a decimal digit character. -/
def digitVal? (c : Char) : Option Nat :=
  if '0' ≤ c ∧ c ≤ '9' then some (c.toNat - 48) else none

/-- Decimal value of a digit string; any non-digit character fails. -/
def natFromDigits : List Char → Nat → Option Nat
  | [], acc => some acc
  | c :: cs, acc =>
    match digitVal? c with
    | some d => natFromDigits cs (acc * 10 + d)
    | none => none

/-- Model of Python `int(...)` on a string, as used on numeric claims and
subjects: an optional sign followed by at least one decimal digit; anything
else raises `ValueError` (`none`). -/
def pyInt? (s : String) : Option Int :=
  match s.data with
  | [] => none
  | '-' :: rest =>
    match rest with
    | [] => none
    | _ => (natFromDigits rest 0).map (fun n => -(n : Int))
  | '+' :: rest =>
    match rest with
    | [] => none
    | _ => (natFromDigits rest 0).map (fun n => (n : Int))
  | l => (natFromDigits l 0).map (fun n => (n : Int))

/-- Model of `jose.jwt.decode(token, key, [alg])`: rejects structurally
malformed tokens and wrong signatures with `JWTError`; if an `exp` claim is
present it must be castable to int (else `JWTClaimsError`) and not lie in the
past (`exp < now` raises `ExpiredSignatureError`); all of these are
subclasses of `JWTError`, which the model collapses to `Except.error`. -/
def joseDecode (w : Wire) (key : String) (now : Int) : Except Unit Claims :=
  match w with
  | .malformed _ => .error ()
  | .signed claims sigKey =>
    if sigKey ≠ key then .error ()
    else
      match claims.lookup "exp" with
      | none => .ok claims
      | some (.int n) => if n < now then .error () else .ok claims
      | some (.str s) =>
        match pyInt? s with
        | some n => if n < now then .error () else .ok claims
        | none => .error ()
      | some _ => .error ()

/-- Required `str` field of the pydantic model: missing or non-string values
fail validation. -/
def reqStr? (v : Option JsonValue) : Option String :=
  match v with
  | some (.str s) => some s
  | _ => none

/-- Required `int` field of the pydantic model: lax mode also coerces numeric
strings. -/
def reqInt? (v : Option JsonValue) : Option Int :=
  match v with
  | some (.int n) => some n
  | some (.str s) => pyInt? s
  | _ => none

/-- `OptionalStr` field: absent or JSON null validate to `None`; a string
validates to itself; any other type fails validation. -/
def optStr? (v : Option JsonValue) : Option (Option String) :=
  match v with
  | none => some none
  | some .null => some none
  | some (.str s) => some (some s)
  | _ => none

/-- `purpose` field: absent defaults to `ACCESS`; a string must be one of the
enum values; any other type fails validation. -/
def purposeField? (v : Option JsonValue) : Option TokenPurpose :=
  match v with
  | none => some .access
  | some (.str s) =>
    if s == "access" then some .access
    else if s == "refresh" then some .refresh
    else if s == "email_confirmation" then some .email_confirmation
    else none
  | some _ => none

/-- Validation performed by `TokenPayload(**claims)`: `none` is a pydantic
`ValidationError`. -/
def TokenPayload.fromClaims (c : Claims) : Option TokenPayload := do
  let sub ← reqStr? (c.lookup "sub")
  let sid ← optStr? (c.lookup "sid")
  let iat ← reqInt? (c.lookup "iat")
  let exp ← reqInt? (c.lookup "exp")
  let jti ← optStr? (c.lookup "jti")
  let role ← optStr? (c.lookup "role")
  let purpose ← purposeField? (c.lookup "purpose")
  let fingerprint ← optStr? (c.lookup "fingerprint")
  pure ⟨sub, sid, iat, exp, jti, role, purpose, fingerprint⟩

end AuthSys

namespace AuthSys

/-- Embedding of `JWTSettings` (src/config.py): signing key plus TTLs.
`access_token_ttl` is in seconds; the other TTLs are in days. -/
structure JWTSettings where
  secret_key : String
  algorithm : String
  access_token_ttl : Int
  refresh_token_ttl : Int
  email_confirmation_ttl : Int
deriving Repr, DecidableEq

/-- Embedding of `get_iat_exp_timestamps` (src/core/utils.py:11-23) with the
clock injected: issued-at is `now`, expiry is `now` plus the delta in
seconds. -/
def get_iat_exp_timestamps (now : Int) (deltaSeconds : Int) : Int × Int :=
  (now, now + deltaSeconds)

/-- Embedding of the pydantic model `AccessToken` (src/token_manager.py:59-74). -/
structure AccessToken where
  token : Wire
  type : String
  created_at : Int
  expires_at : Int
deriving Repr, DecidableEq

/-- Embedding of the pydantic model `RefreshToken` (src/token_manager.py:77-88):
the opaque plaintext and its expiry. -/
structure RefreshToken where
  token : String
  expires_at : Int
deriving Repr, DecidableEq

/-- Embedding of the pydantic model `TokenPair` (src/token_manager.py:91-102). -/
structure TokenPair where
  access_token : AccessToken
  refresh_token : RefreshToken
deriving Repr, DecidableEq

namespace TokenManager

/-- Embedding of `TokenManager._encode` (src/token_manager.py:280-281):
`jwt.encode(payload.to_dict(), secret_key, algorithm)`. -/
def encodeJwt (settings : JWTSettings) (p : TokenPayload) : Wire :=
  .signed p.to_dict settings.secret_key

/-- Embedding of `TokenManager.decode_token` (src/token_manager.py:258-278).
Only `jose.exceptions.JWTError` is caught and translated to
`TokenVerificationError`; the pydantic `ValidationError` raised by
`TokenPayload(**claims)` on a validly signed token with missing or ill-typed
claims escapes uncaught.  The `fingerprint` guard uses Python truthiness:
`None` and the empty string skip the check. -/
def decode_token (settings : JWTSettings) (now : Int) (w : Wire)
    (fingerprint : Option String := none) : Except PyExc TokenPayload :=
  match joseDecode w settings.secret_key now with
  | .error _ => .error .tokenVerificationError
  | .ok claims =>
    match TokenPayload.fromClaims claims with
    | none => .error .validationError
    | some payload =>
      match fingerprint with
      | some fp =>
        if fp ≠ "" && payload.fingerprint ≠ some fp then .error .tokenVerificationError
        else .ok payload
      | none => .ok payload

/-- Embedding of `TokenManager.verify_access_token` (src/token_manager.py:201-217):
decode, then require `purpose == ACCESS`. -/
def verify_access_token (settings : JWTSettings) (now : Int) (w : Wire) :
    Except PyExc TokenPayload :=
  match decode_token settings now w with
  | .error e => .error e
  | .ok payload =>
    if payload.purpose ≠ .access then .error .tokenVerificationError
    else .ok payload

/-- Embedding of `TokenManager.create_email_confirmation_token`
(src/token_manager.py:120-135): payload with only `sub`, `iat`, `exp` and
`purpose = EMAIL_CONFIRMATION`, TTL in days. -/
def create_email_confirmation_token (settings : JWTSettings) (now : Int)
    (user_id : Int) : Wire :=
  let ts := get_iat_exp_timestamps now (settings.email_confirmation_ttl * 86400)
  encodeJwt settings
    ⟨toString user_id, none, ts.1, ts.2, none, none, .email_confirmation, none⟩

/-- Embedding of `TokenManager.verify_email_confirmation_token`
(src/token_manager.py:137-153): decode, require
`purpose == EMAIL_CONFIRMATION`, then `int(payload.sub)` (which raises
`ValueError` on a non-numeric subject). -/
def verify_email_confirmation_token (settings : JWTSettings) (now : Int)
    (w : Wire) : Except PyExc Int :=
  match decode_token settings now w with
  | .error e => .error e
  | .ok payload =>
    if payload.purpose ≠ .email_confirmation then .error .tokenVerificationError
    else
      match pyInt? payload.sub with
      | some n => .ok n
      | none => .error .valueError

/-- Embedding of `TokenManager.make_access_token_payload`
(src/token_manager.py:155-186); the fresh `jti` drawn from `uuid.uuid4()` is
an explicit argument, the `sid` parameter defaults to `None` so the session id
string is used. -/
def make_access_token_payload (settings : JWTSettings) (now : Int)
    (user_id : Int) (user_role : String) (session_id : String) (jti : String)
    (fingerprint : Option String := none) : TokenPayload :=
  let ts := get_iat_exp_timestamps now settings.access_token_ttl
  ⟨toString user_id, some session_id, ts.1, ts.2, some jti, some user_role,
    .access, fingerprint⟩

/-- Embedding of `TokenManager.create_access_token` (src/token_manager.py:188-199). -/
def create_access_token (settings : JWTSettings) (p : TokenPayload) : AccessToken :=
  ⟨encodeJwt settings p, "bearer", p.iat, p.exp⟩

/-- Embedding of `TokenManager.create_refresh_token` (src/token_manager.py:219-232)
with the random `secrets.token_urlsafe(64)` plaintext injected.  Python's
`token_ttl or self.refresh_token_ttl` treats `0` (and `None`) as falsy. -/
def create_refresh_token (settings : JWTSettings) (now : Int) (plaintext : String)
    (token_ttl : Option Int := none) : RefreshToken :=
  let days := match token_ttl with
    | some d => if d == 0 then settings.refresh_token_ttl else d
    | none => settings.refresh_token_ttl
  let ts := get_iat_exp_timestamps now (days * 86400)
  ⟨plaintext, ts.2⟩

/-- Embedding of `TokenManager.get_token_pair` (src/token_manager.py:234-256). -/
def get_token_pair (settings : JWTSettings) (now : Int) (user_id : Int)
    (user_role : String) (session_id : String) (jti : String) (plaintext : String)
    (refresh_token_ttl : Option Int := none) : TokenPair :=
  let payload := make_access_token_payload settings now user_id user_role session_id jti
  ⟨create_access_token settings payload,
   create_refresh_token settings now plaintext refresh_token_ttl⟩

end TokenManager

end AuthSys

namespace AuthSys

/-- Python dict `{resource_type: [actions]}` as an insertion-ordered
association list. -/
abbrev PermDict := List (String × List String)

/-- Dict read `d.get(k)` / `k in d`: first entry with the key. -/
def dictFind? (d : PermDict) (k : String) : Option (List String) :=
  (d.find? (fun kv => kv.1 == k)).map (·.2)

/-- In-place replacement of the value stored under an existing key, the effect
of mutating `d[k]` (append/remove on the stored list). -/
def dictSet (d : PermDict) (k : String) (v : List String) : PermDict :=
  match d with
  | [] => []
  | kv :: rest => if kv.1 == k then (k, v) :: rest else kv :: dictSet rest k v

/-- Embedding of `_permission_dict_from_result`
(src/auth/repositories/permissions_repo.py:25-32): group the joined
`(resource_type, action)` rows into a dict of action lists, preserving row
order and inserting new keys at the end. -/
def permissionDictFromResult (rows : List (String × String)) : PermDict :=
  rows.foldl (fun acc row =>
    match dictFind? acc row.1 with
    | none => acc ++ [(row.1, [row.2])]
    | some l => dictSet acc row.1 (l ++ [row.2])) []

/-- Key-presence guard of the `_apply_user_permissions` loop
(src/auth/repositories/permissions_repo.py:42-43): `if resource_type not in
final_permissions: final_permissions[resource_type] = []`. -/
def ensureKey (d : PermDict) (k : String) : PermDict :=
  if (dictFind? d k).isSome then d else d ++ [(k, [])]

/-- Single iteration of the `_apply_user_permissions` loop
(src/auth/repositories/permissions_repo.py:41-48) for one
`(resource_type, action, granted)` row: ensure the key exists, append the
action if granted and absent, remove its first occurrence if revoked and
present. -/
def applyOverride (acc : PermDict) (row : String × String × Bool) : PermDict :=
  let acc := ensureKey acc row.1
  let cur := (dictFind? acc row.1).getD []
  if row.2.2 then
    if cur.contains row.2.1 then acc else dictSet acc row.1 (cur ++ [row.2.1])
  else
    if cur.contains row.2.1 then dictSet acc row.1 (cur.erase row.2.1) else acc

/-- Embedding of `_apply_user_permissions`
(src/auth/repositories/permissions_repo.py:35-49).  The Python shallow
`role_permissions.copy()` aliases the action lists, but every read and write
inside the loop goes through `final_permissions`, so the returned value equals
this pure fold. -/
def applyUserPermissions (role_permissions : PermDict)
    (user_permissions : List (String × String × Bool)) : PermDict :=
  user_permissions.foldl applyOverride role_permissions

/-- Membership of an action in the dict entry of a resource type (an absent
key holds no actions). -/
def memPerm (d : PermDict) (resource_type action : String) : Bool :=
  ((dictFind? d resource_type).getD []).contains action

/-- Occurrence count of an action in the dict entry of a resource type. -/
def countPerm (d : PermDict) (resource_type action : String) : Nat :=
  ((dictFind? d resource_type).getD []).count action

/-- Role-permission join of `get_all_user_permissions`
(src/auth/repositories/permissions_repo.py:73-82): users → user_roles →
role_permissions → permissions → resource_types, selecting
`(resource_type.name, permission.action)`. -/
def rolePermJoin (db : DB) (user_id : Int) : List (String × String) :=
  (db.users.filter (fun u => u.id == user_id)).flatMap (fun u =>
    (db.roles.filter (fun r => r.id == u.role_id)).flatMap (fun r =>
      (db.rolePermissions.filter (fun rp => rp.role_id == r.id)).flatMap (fun rp =>
        (db.permissions.filter (fun p => p.id == rp.permission_id)).flatMap (fun p =>
          (db.resourceTypes.filter (fun rt => rt.id == p.resource_type_id)).map
            (fun rt => (rt.name, p.action))))))

/-- User-override join of `get_all_user_permissions`
(src/auth/repositories/permissions_repo.py:83-94): user_permissions →
permissions → resource_types, selecting
`(resource_type.name, permission.action, granted)`. -/
def userPermJoin (db : DB) (user_id : Int) : List (String × String × Bool) :=
  (db.userPermissions.filter (fun up => up.user_id == user_id)).flatMap (fun up =>
    (db.permissions.filter (fun p => p.id == up.permission_id)).flatMap (fun p =>
      (db.resourceTypes.filter (fun rt => rt.id == p.resource_type_id)).map
        (fun rt => (rt.name, p.action, up.granted))))

namespace PermissionRepository

/-- Embedding of `PermissionRepository.get_all_user_permissions`
(src/auth/repositories/permissions_repo.py:60-96). -/
def get_all_user_permissions (db : DB) (user_id : Int) : PermDict :=
  applyUserPermissions (permissionDictFromResult (rolePermJoin db user_id))
    (userPermJoin db user_id)

/-- Update applied by `set_user_permission` when a `UserPermissionEntity` row
is found: the ORM mutates the found row's `granted` and `granted_by` (its
`user_id` is left as it is) and commits.  `scalar` returns the first row, so
the first row whose `permission_id` matches is mutated. -/
def updateFoundOverride : List UserPermissionEntity → Int → Bool → Int →
    List UserPermissionEntity
  | [], _, _, _ => []
  | up :: rest, pid, g, gb =>
    if up.permission_id == pid then { up with granted := g, granted_by := gb } :: rest
    else up :: updateFoundOverride rest pid g gb

/-- Embedding of `PermissionRepository.set_user_permission`
(src/auth/repositories/permissions_repo.py:98-140).  The existing-row lookup
filters on `UserPermissionEntity.permission_id` only — there is no
`user_id` condition in the WHERE clause. -/
def set_user_permission (db : DB) (user_id : Int) (permission_name : String)
    (granted : Bool) (granted_by : Int) : Except PyExc DB :=
  match db.permissions.find? (fun p => p.name == permission_name) with
  | none => .error .permissionNotFound
  | some permission =>
    match db.userPermissions.find? (fun up => up.permission_id == permission.id) with
    | some _ =>
      let ups := updateFoundOverride db.userPermissions permission.id granted granted_by
      .ok { db with userPermissions := ups }
    | none =>
      let ups := db.userPermissions ++ [⟨user_id, permission.id, granted, granted_by⟩]
      .ok { db with userPermissions := ups }

end PermissionRepository

end AuthSys

namespace AuthSys

/-- Embedding of `PermissionAction` (src/auth/models.py:13-23), a `str` Enum. -/
inductive PermissionAction where
  | create
  | read
  | update
  | delete
  | manage
deriving Repr, DecidableEq

/-- Conversion `PermissionAction(value)`: `none` is the `ValueError` raised on
an unknown enum value. -/
def PermissionAction.ofString? : String → Option PermissionAction
  | "create" => some .create
  | "read" => some .read
  | "update" => some .update
  | "delete" => some .delete
  | "manage" => some .manage
  | _ => none

/-- Embedding of the pydantic model `Permission` (src/auth/models.py:42-47). -/
structure Permission where
  resource_type : String
  action : PermissionAction
deriving Repr, DecidableEq

/-- Embedding of the pydantic model `UserPermissions` (src/auth/models.py:50-93). -/
structure UserPermissions where
  permissions : List Permission
deriving Repr, DecidableEq

/-- Embedding of `UserPermissions.from_dict` (src/auth/models.py:59-77):
flatten the dict into `Permission(resource_type.lower(), PermissionAction(action))`
rows; an unknown action string raises `ValueError`. -/
def UserPermissions.from_dict (d : PermDict) : Except PyExc UserPermissions :=
  let pairs := d.flatMap (fun kv => kv.2.map (fun a => (kv.1, a)))
  match pairs.mapM (fun p =>
      (PermissionAction.ofString? p.2).map (fun a => Permission.mk (pyLower p.1) a)) with
  | some ps => .ok ⟨ps⟩
  | none => .error .valueError

/-- Embedding of `UserPermissions.has_permission` (src/auth/models.py:79-93):
match on the lowercased query resource type and exact action. -/
def UserPermissions.has_permission (ps : UserPermissions) (resource_type : String)
    (action : PermissionAction) : Bool :=
  ps.permissions.any (fun p =>
    p.resource_type == pyLower resource_type && p.action == action)

namespace UserRepository

/-- Embedding of `UserRepository.get_by_id` (src/users/repositories/user.py:86-107). -/
def get_by_id (db : DB) (user_id : Int) : Except PyExc UserEntity :=
  match db.users.find? (fun u => u.id == user_id) with
  | some u => .ok u
  | none => .error .userNotFound

/-- Embedding of `UserRepository.mark_as_inactive`
(src/users/repositories/user.py:126-141): load the user with its role, raise
`AdminDeletion` when the role name is "admin", otherwise clear `is_active`
and commit.  A raised exception leaves the store unchanged.  A user row whose
`role_id` resolves to no role row would make `user.role.name` an attribute
access on `None`. -/
def mark_as_inactive (db : DB) (user_id : Int) : Except PyExc DB :=
  match get_by_id db user_id with
  | .error e => .error e
  | .ok u =>
    match db.roles.find? (fun r => r.id == u.role_id) with
    | none => .error .attributeError
    | some r =>
      if r.name == "admin" then .error .adminDeletion
      else
        let us := db.users.map (fun v => if v.id == u.id then { v with is_active := false } else v)
        .ok { db with users := us }

end UserRepository

namespace DeleteUserUseCase

/-- Embedding of `DeleteUserUseCase.__call__`
(src/admin/use_cases/delete_user.py:23-30): callers holding the
`user`:`delete` permission reach `mark_as_inactive`; everyone else gets
`InsufficientPermissions`. -/
def call (db : DB) (user_id : Int) (permissions : UserPermissions) : Except PyExc DB :=
  if permissions.has_permission "user" PermissionAction.delete then
    UserRepository.mark_as_inactive db user_id
  else .error .insufficientPermissions

end DeleteUserUseCase

/-- Embedding of the dependency `get_user_session` (src/auth/security.py:48-75):
verify the access token, load the active session by the payload's `sid`, and
collapse `TokenVerificationError` and `UserSessionNotFound` to HTTP 401.  A
payload without `sid` makes `uuid.UUID(None)` raise an uncaught `TypeError`,
modelled as `valueError`. -/
def get_user_session (settings : JWTSettings) (db : DB) (now : Int) (w : Wire) :
    Except PyExc UserSessionEntity :=
  match TokenManager.verify_access_token settings now w with
  | .error .tokenVerificationError => .error (.httpException 401)
  | .error e => .error e
  | .ok payload =>
    match payload.sid with
    | none => .error .valueError
    | some sid =>
      match UserSessionRepository.get_active db now sid with
      | .error .userSessionNotFound => .error (.httpException 401)
      | .error e => .error e
      | .ok s => .ok s

/-- Embedding of the dependency `get_user_permissions`
(src/auth/security.py:78-106): verify the access token, then resolve
permissions for `int(payload.sub)`; only `TokenVerificationError` is caught
and turned into HTTP 401.  No session lookup of any kind is performed. -/
def get_user_permissions (settings : JWTSettings) (db : DB) (now : Int) (w : Wire) :
    Except PyExc UserPermissions :=
  match TokenManager.verify_access_token settings now w with
  | .error .tokenVerificationError => .error (.httpException 401)
  | .error e => .error e
  | .ok payload =>
    match pyInt? payload.sub with
    | none => .error .valueError
    | some uid =>
      UserPermissions.from_dict (PermissionRepository.get_all_user_permissions db uid)

namespace RefreshUseCase

/-- Embedding of `RefreshUseCase.__call__` (src/auth/use_cases/refresh.py:27-40)
with the hash primitive (`get_sha256hash`) and the random draws (`jti`, the
fresh opaque refresh plaintext) injected: hash the presented plaintext, pass
the conjunctive gate, mint a pair on the same session with the resolved
user's id and role, persist the new hashed refresh token, then revoke the
consumed hash. -/
def call (hashFn : String → String) (settings : JWTSettings) (db : DB) (now : Int)
    (jti newPlaintext : String) (token : String) : Except PyExc (TokenPair × DB) :=
  let token_hash := hashFn token
  match RefreshTokenRepository.get_active_for_refresh db now (hashFn token) with
  | .error e => .error e
  | .ok refresh_token =>
    match db.sessions.find? (fun s => s.id == refresh_token.session_id) with
    | none => .error .attributeError
    | some s =>
      match db.users.find? (fun u => u.id == s.user_id) with
      | none => .error .attributeError
      | some u =>
        match db.roles.find? (fun r => r.id == u.role_id) with
        | none => .error .attributeError
        | some r =>
          let pair := TokenManager.get_token_pair settings now u.id r.name
            refresh_token.session_id jti newPlaintext
          let newRow : RefreshTokenEntity :=
            ⟨refresh_token.session_id, hashFn newPlaintext,
              pair.refresh_token.expires_at, false⟩
          let db1 := { db with refreshTokens := db.refreshTokens ++ [newRow] }
          let db2 := (RefreshTokenRepository.revoke db1 now token_hash).2
          .ok (pair, db2)

end RefreshUseCase

end AuthSys

namespace AuthSys

/-- Concrete store used to witness the C1 gate theorem. -/
def dbC1 : DB :=
  { users := [⟨1, true, 1⟩], roles := [⟨1, "user"⟩], resourceTypes := [],
    permissions := [], rolePermissions := [], userPermissions := [],
    sessions := [⟨"s1", 1, false, 100⟩],
    refreshTokens := [⟨"s1", "h1", 100, false⟩] }

/-- Concrete store used to witness the C2 rotation theorem. -/
def dbC2 : DB :=
  { users := [⟨1, true, 1⟩], roles := [⟨1, "user"⟩], resourceTypes := [],
    permissions := [], rolePermissions := [], userPermissions := [],
    sessions := [⟨"s1", 1, false, 100⟩],
    refreshTokens := [⟨"s1", "h#p", 100, false⟩] }

/-- Concrete stand-in for the hash primitive in the C2 witness. -/
def hashC2 : String → String := fun s => "h#" ++ s

/-- Settings used by the concrete token fixtures. -/
def stC2 : JWTSettings := ⟨"k", "HS256", 20, 1, 1⟩

/-- Token pair minted by the witnessed first refresh. -/
def pairC2 : TokenPair := TokenManager.get_token_pair stC2 0 1 "user" "s1" "j1" "q"

/-- Store reached after the witnessed first refresh: the consumed token is
revoked and the fresh hashed token is persisted. -/
def dbC2r : DB :=
  { dbC2 with refreshTokens :=
      [⟨"s1", "h#p", 100, true⟩, ⟨"s1", "h#q", 86400, false⟩] }

/-- Settings used by the C3 guard fixtures. -/
def stC3 : JWTSettings := ⟨"k", "HS256", 20, 1, 1⟩

/-- Store whose only session is revoked, while the role grants order:read. -/
def dbC3 : DB :=
  { users := [⟨1, true, 1⟩], roles := [⟨1, "user"⟩],
    resourceTypes := [⟨1, "order"⟩],
    permissions := [⟨1, "read_order", 1, "read"⟩],
    rolePermissions := [⟨1, 1⟩], userPermissions := [],
    sessions := [⟨"s1", 1, true, 100⟩], refreshTokens := [] }

/-- Valid unexpired access-token payload bound to the revoked session. -/
def payloadC3 : TokenPayload := TokenManager.make_access_token_payload stC3 5 1 "user" "s1" "j"

/-- Wire token carrying `payloadC3`, signed with the configured key. -/
def wC3 : Wire := TokenManager.encodeJwt stC3 payloadC3

/-- Value of the last override targeting a given `(resource_type, action)`
pair, written as the loop accumulates it. -/
def lastOverride? (ov : List (String × String × Bool)) (rt a : String) :
    Option Bool :=
  ov.foldl (fun acc o => if o.1 == rt && o.2.1 == a then some o.2.2 else acc) none

/-- Store in which user 1 — and only user 1 — holds an override for the
permission named `read_order`. -/
def dbC5 : DB :=
  { users := [⟨1, true, 1⟩, ⟨2, true, 1⟩], roles := [⟨1, "user"⟩],
    resourceTypes := [⟨1, "order"⟩],
    permissions := [⟨1, "read_order", 1, "read"⟩],
    rolePermissions := [],
    userPermissions := [⟨1, 1, true, 1⟩],
    sessions := [], refreshTokens := [] }

/-- Fixture for C10: the sole user holds the "admin" role. -/
def dbC10 : DB :=
  { users := [⟨1, true, 1⟩], roles := [⟨1, "admin"⟩], resourceTypes := [],
    permissions := [], rolePermissions := [], userPermissions := [],
    sessions := [], refreshTokens := [] }

/-- Fixture for C8: the sole session is already revoked. -/
def dbC8 : DB :=
  { users := [], roles := [], resourceTypes := [], permissions := [],
    rolePermissions := [], userPermissions := [],
    sessions := [⟨"s1", 1, true, 100⟩], refreshTokens := [] }

/-- Settings used by the C6 witness fixtures. -/
def stC6 : JWTSettings := ⟨"k", "HS256", 20, 1, 1⟩

end AuthSys

namespace AuthSys

/-- Characterization of a successful session lookup inside a list with
pairwise-distinct session ids. -/
lemma find?_session_eq_some (sessions : List UserSessionEntity) (sid : String)
    (hids : (sessions.map (fun s => s.id)).Nodup) (s : UserSessionEntity)
    (hmem : s ∈ sessions) (hid : s.id = sid) :
    sessions.find? (fun x => x.id == sid) = some s := by
  have hsome : (sessions.find? (fun x => x.id == sid)).isSome := by
    rw [List.find?_isSome]
    exact ⟨s, hmem, by simp [hid]⟩
  obtain ⟨s', hs'⟩ := Option.isSome_iff_exists.mp hsome
  have hmem' : s' ∈ sessions := List.mem_of_find?_eq_some hs'
  have hid' : s'.id = sid := by simpa using List.find?_some hs'
  have : s' = s := List.inj_on_of_nodup_map hids hmem' hmem (by rw [hid', hid])
  rw [hs', this]

/-- Unfolding of the conjunctive gate into its five conditions, assuming the
session ids are pairwise distinct (they are a primary key). -/
lemma refreshGate_eq_true_iff (sessions : List UserSessionEntity) (now : Int)
    (token_hash : String) (t : RefreshTokenEntity)
    (hids : (sessions.map (fun s => s.id)).Nodup) :
    refreshGate sessions now token_hash t = true ↔
      t.token_hash = token_hash ∧ t.is_revoked = false ∧ now < t.expires_at ∧
        ∃ s ∈ sessions, s.id = t.session_id ∧ s.is_revoked = false ∧
          now < s.expires_at := by
  unfold refreshGate
  constructor
  · intro h
    simp only [Bool.and_eq_true, beq_iff_eq, Bool.not_eq_true', decide_eq_true_eq] at h
    obtain ⟨⟨⟨hh, hrev⟩, hexp⟩, hmatch⟩ := h
    refine ⟨hh, hrev, hexp, ?_⟩
    cases hfind : sessions.find? (fun x => x.id == t.session_id) with
    | none => rw [hfind] at hmatch; exact absurd hmatch (by simp)
    | some s =>
      rw [hfind] at hmatch
      simp only [Bool.and_eq_true, Bool.not_eq_true', decide_eq_true_eq] at hmatch
      exact ⟨s, List.mem_of_find?_eq_some hfind, by simpa using List.find?_some hfind,
        hmatch.1, hmatch.2⟩
  · rintro ⟨hh, hrev, hexp, s, hmem, hid, hsrev, hsexp⟩
    rw [find?_session_eq_some sessions t.session_id hids s hmem hid]
    simp [hh, hrev, hexp, hsrev, hsexp]

/-- Claim C1: The refresh-rotation lookup `get_active_for_refresh(token_hash)`
succeeds exactly when some stored refresh token satisfies all five conditions
jointly — hash match, token not revoked, token unexpired, owning session not
revoked, owning session unexpired — at the current time; whenever that
conjunction fails for every stored token the lookup raises `TokenNotFound`
(its only error), and in particular if every session owning a hash-matching
token is revoked, the lookup fails even though the token rows are untouched. -/
theorem get_active_for_refresh_conjunctive_gate (db : DB) (now : Int)
    (token_hash : String) (hids : (db.sessions.map (fun s => s.id)).Nodup) :
    ((RefreshTokenRepository.get_active_for_refresh db now token_hash).isOk = true ↔
      ∃ t ∈ db.refreshTokens, t.token_hash = token_hash ∧ t.is_revoked = false ∧
        now < t.expires_at ∧ ∃ s ∈ db.sessions, s.id = t.session_id ∧
          s.is_revoked = false ∧ now < s.expires_at) ∧
    (∀ e, RefreshTokenRepository.get_active_for_refresh db now token_hash = .error e →
      e = .tokenNotFound) ∧
    ((∀ t ∈ db.refreshTokens, t.token_hash = token_hash →
        ∀ s ∈ db.sessions, s.id = t.session_id → s.is_revoked = true) →
      RefreshTokenRepository.get_active_for_refresh db now token_hash =
        .error .tokenNotFound) := by
  refine ⟨?_, ?_, ?_⟩
  · unfold RefreshTokenRepository.get_active_for_refresh
    cases hf : db.refreshTokens.find? (refreshGate db.sessions now token_hash) with
    | none =>
      simp only [Except.isOk, Except.toBool]
      constructor
      · intro h; exact absurd h (by simp)
      · rintro ⟨t, hmem, ht⟩
        have := List.find?_eq_none.mp hf t hmem
        exact absurd ((refreshGate_eq_true_iff db.sessions now token_hash t hids).mpr
          ⟨ht.1, ht.2.1, ht.2.2.1, ht.2.2.2⟩) this
    | some t =>
      simp only [Except.isOk, Except.toBool]
      constructor
      · intro _
        exact ⟨t, List.mem_of_find?_eq_some hf,
          (refreshGate_eq_true_iff db.sessions now token_hash t hids).mp
            (List.find?_some hf)⟩
      · intro _; trivial
  · intro e he
    unfold RefreshTokenRepository.get_active_for_refresh at he
    cases hf : db.refreshTokens.find? (refreshGate db.sessions now token_hash) with
    | none => rw [hf] at he; cases he; rfl
    | some t => rw [hf] at he; cases he
  · intro hall
    unfold RefreshTokenRepository.get_active_for_refresh
    have hnone : db.refreshTokens.find? (refreshGate db.sessions now token_hash) = none := by
      rw [List.find?_eq_none]
      intro t hmem hgate
      obtain ⟨hh, _, _, s, hsmem, hsid, hsrev, _⟩ :=
        (refreshGate_eq_true_iff db.sessions now token_hash t hids).mp hgate
      exact absurd (hall t hmem hh s hsmem hsid) (by simp [hsrev])
    rw [hnone]

end AuthSys

namespace AuthSys

/-- Witness for C1: at a concrete store the id-distinctness hypothesis holds
and the gate admits the live token. -/
theorem get_active_for_refresh_conjunctive_gate_witness :
    ((dbC1.sessions.map (fun s => s.id)).Nodup) ∧
      (RefreshTokenRepository.get_active_for_refresh dbC1 10 "h1").isOk = true :=
  ⟨by decide,
   (get_active_for_refresh_conjunctive_gate dbC1 10 "h1" (by decide)).1.mpr (by decide)⟩

/-- Failure of the gate from the token row alone: a hash mismatch, a revoked
token, or an expired token falsifies the conjunction. -/
lemma refreshGate_false_of_token (sessions : List UserSessionEntity) (now : Int)
    (token_hash : String) (t : RefreshTokenEntity)
    (h : t.token_hash ≠ token_hash ∨ t.is_revoked = true ∨ t.expires_at ≤ now) :
    refreshGate sessions now token_hash t = false := by
  rcases h with h | h | h
  · have hb : (t.token_hash == token_hash) = false := by simp [h]
    simp [refreshGate, hb]
  · simp [refreshGate, h]
  · have hb : ¬ (now < t.expires_at) := by omega
    simp [refreshGate, hb]

/-- Store reached after a successful rotation rejects the consumed hash: once
every live matching token has been revoked and the appended row carries a
different hash, the conjunctive gate finds nothing at any later time. -/
lemma get_active_for_refresh_after_rotation (db : DB) (now now2 : Int)
    (token_hash : String) (newRow : RefreshTokenEntity)
    (hfresh : newRow.token_hash ≠ token_hash) (hclock : now ≤ now2) :
    RefreshTokenRepository.get_active_for_refresh
      ((RefreshTokenRepository.revoke
        { db with refreshTokens := db.refreshTokens ++ [newRow] } now token_hash).2)
      now2 token_hash = .error .tokenNotFound := by
  simp only [RefreshTokenRepository.revoke]
  unfold RefreshTokenRepository.get_active_for_refresh
  have hnone : ((db.refreshTokens ++ [newRow]).map (fun t =>
      if t.token_hash == token_hash && !t.is_revoked && now < t.expires_at then
        { t with is_revoked := true }
      else t)).find? (refreshGate db.sessions now2 token_hash) = none := by
    rw [List.find?_eq_none]
    intro x hx
    rw [List.mem_map] at hx
    obtain ⟨y, hy, rfl⟩ := hx
    intro hgate
    have hgatef : refreshGate db.sessions now2 token_hash
        (if y.token_hash == token_hash && !y.is_revoked && now < y.expires_at then
          { y with is_revoked := true }
        else y) = false := by
      by_cases hc : (y.token_hash == token_hash && !y.is_revoked &&
          now < y.expires_at) = true
      · rw [if_pos hc]
        exact refreshGate_false_of_token _ _ _ _ (Or.inr (Or.inl rfl))
      · rw [if_neg hc]
        rw [List.mem_append] at hy
        rcases hy with hy | hy
        · by_cases hh : y.token_hash = token_hash
          · simp only [hh, beq_self_eq_true, Bool.true_and, Bool.and_eq_true,
              Bool.not_eq_true', decide_eq_true_eq, not_and] at hc
            by_cases hrev : y.is_revoked = true
            · exact refreshGate_false_of_token _ _ _ _ (Or.inr (Or.inl hrev))
            · have hrev' : y.is_revoked = false := by
                cases hyr : y.is_revoked
                · rfl
                · exact absurd hyr hrev
              have hexp : ¬ (now < y.expires_at) := hc hrev'
              exact refreshGate_false_of_token _ _ _ _ (Or.inr (Or.inr (by omega)))
          · exact refreshGate_false_of_token _ _ _ _ (Or.inl hh)
        · rw [List.mem_singleton] at hy
          rw [hy]
          exact refreshGate_false_of_token _ _ _ _ (Or.inl hfresh)
    rw [hgatef] at hgate
    cases hgate
  rw [hnone]

/-- Claim C2: Refresh rotation is single-use: when `Refresh(p)` succeeds, the
resulting store has revoked every live stored token whose hash matches the
hash of `p`, and the freshly stored token carries the hash of a distinct
fresh plaintext, so a second `Refresh(p)` at any later time fails with
`TokenNotFound` (the `RefreshTokenInvalid` signal). -/
theorem refresh_rotation_single_use (hashFn : String → String)
    (settings : JWTSettings) (db : DB) (now now2 : Int)
    (jti newPlaintext token jti2 newPlaintext2 : String) (pair : TokenPair) (db2 : DB)
    (hfresh : hashFn newPlaintext ≠ hashFn token) (hclock : now ≤ now2)
    (hok : RefreshUseCase.call hashFn settings db now jti newPlaintext token =
      .ok (pair, db2)) :
    RefreshUseCase.call hashFn settings db2 now2 jti2 newPlaintext2 token =
      .error .tokenNotFound := by
  unfold RefreshUseCase.call at hok ⊢
  cases hg : RefreshTokenRepository.get_active_for_refresh db now (hashFn token) with
  | error e => rw [hg] at hok; cases hok
  | ok rt =>
    rw [hg] at hok
    simp only [] at hok
    cases hs : db.sessions.find? (fun s => s.id == rt.session_id) with
    | none => rw [hs] at hok; cases hok
    | some s =>
      rw [hs] at hok
      simp only [] at hok
      cases hu : db.users.find? (fun u => u.id == s.user_id) with
      | none => rw [hu] at hok; cases hok
      | some u =>
        rw [hu] at hok
        simp only [] at hok
        cases hr : db.roles.find? (fun r => r.id == u.role_id) with
        | none => rw [hr] at hok; cases hok
        | some r =>
          rw [hr] at hok
          simp only [Except.ok.injEq, Prod.mk.injEq] at hok
          obtain ⟨-, hdb2⟩ := hok
          subst hdb2
          rw [get_active_for_refresh_after_rotation db now now2 (hashFn token) _
            hfresh hclock]

/-- Witness for C2: a concrete first refresh succeeds and the theorem rejects
the replayed plaintext. -/
theorem refresh_rotation_single_use_witness :
    hashC2 "q" ≠ hashC2 "p" ∧
      RefreshUseCase.call hashC2 stC2 dbC2 0 "j1" "q" "p" = .ok (pairC2, dbC2r) ∧
      RefreshUseCase.call hashC2 stC2 dbC2r 1 "j2" "r" "p" = .error .tokenNotFound :=
  ⟨by decide, by rfl,
   refresh_rotation_single_use hashC2 stC2 dbC2 0 1 "j1" "q" "p" "j2" "r" pairC2 dbC2r
     (by decide) (by decide) (by rfl)⟩

/-- Claim C3, counterexample: A validly signed, unexpired access token bound to a
revoked session: `get_user_session` rejects it with the 401 outcome, yet
`get_user_permissions` — the guard path that produces the permission set for
authorization — accepts the request and resolves the permission set, so a
dead session does reach the permission resolver. -/
theorem get_user_permissions_dead_session_counterexample :
    TokenManager.verify_access_token stC3 10 wC3 = .ok payloadC3 ∧
      UserSessionRepository.get_active dbC3 10 "s1" = .error .userSessionNotFound ∧
      get_user_session stC3 dbC3 10 wC3 = .error (.httpException 401) ∧
      get_user_permissions stC3 dbC3 10 wC3 =
        .ok ⟨[⟨"order", PermissionAction.read⟩]⟩ :=
  ⟨by rfl, by rfl, by rfl, by rfl⟩

/-- Claim C3, amended: Only `get_user_session` enforces session liveness: its
outcome is the 401 rejection whenever the token's session lookup fails, while
the outcome of `get_user_permissions` is entirely independent of the session
store — it verifies the token and resolves permissions without any session
check. -/
theorem get_user_permissions_no_session_check (settings : JWTSettings) (db : DB)
    (sessions2 : List UserSessionEntity) (now : Int) (w : Wire) :
    (get_user_permissions settings { db with sessions := sessions2 } now w =
      get_user_permissions settings db now w) ∧
    (∀ payload sid, TokenManager.verify_access_token settings now w = .ok payload →
      payload.sid = some sid →
      UserSessionRepository.get_active db now sid = .error .userSessionNotFound →
      get_user_session settings db now w = .error (.httpException 401)) := by
  constructor
  · rfl
  · intro payload sid hv hsid hact
    unfold get_user_session
    rw [hv]
    simp only []
    rw [hsid]
    simp only []
    rw [hact]

/-- Witness for the amended C3 theorem at the concrete fixtures: the dead
session is rejected on the session path, and permission resolution ignores
the session table. -/
theorem get_user_permissions_no_session_check_witness :
    get_user_session stC3 dbC3 10 wC3 = .error (.httpException 401) ∧
      get_user_permissions stC3 { dbC3 with sessions := [] } 10 wC3 =
        get_user_permissions stC3 dbC3 10 wC3 :=
  ⟨(get_user_permissions_no_session_check stC3 dbC3 [] 10 wC3).2 payloadC3 "s1"
      (by rfl) (by rfl) (by rfl),
   (get_user_permissions_no_session_check stC3 dbC3 [] 10 wC3).1⟩

end AuthSys

namespace AuthSys

/-- Appending a fresh entry is invisible to reads of absent keys other than
the appended one. -/
lemma dictFind?_append_of_none (d : PermDict) (k k' : String) (v : List String)
    (h : dictFind? d k' = none) :
    dictFind? (d ++ [(k, v)]) k' = if k == k' then some v else none := by
  induction d with
  | nil =>
    by_cases hk : (k == k') = true
    · simp [dictFind?, List.find?_cons, hk]
    · have hk' : (k == k') = false := by
        cases hc : (k == k')
        · rfl
        · exact absurd hc hk
      simp [dictFind?, List.find?_cons, hk']
  | cons kv d ih =>
    by_cases hh : (kv.1 == k') = true
    · exact absurd h (by simp [dictFind?, List.find?_cons, hh])
    · have hh' : (kv.1 == k') = false := by
        cases hc : (kv.1 == k')
        · rfl
        · exact absurd hc hh
      have h' : dictFind? d k' = none := by
        simpa [dictFind?, List.find?_cons, hh'] using h
      rw [List.cons_append]
      simpa [dictFind?, List.find?_cons, hh'] using ih h'

/-- Reads of a key present in the prefix ignore appended entries. -/
lemma dictFind?_append_of_some (d e : PermDict) (k : String) (l : List String)
    (h : dictFind? d k = some l) :
    dictFind? (d ++ e) k = some l := by
  induction d with
  | nil => simp [dictFind?] at h
  | cons kv d ih =>
    rw [List.cons_append]
    cases hh : (kv.1 == k) with
    | true =>
      simp only [dictFind?, List.find?_cons, hh] at h ⊢
      exact h
    | false =>
      have h' : dictFind? d k = some l := by
        simpa [dictFind?, List.find?_cons, hh] using h
      simpa [dictFind?, List.find?_cons, hh] using ih h'

/-- Reading back a value just stored under an existing key. -/
lemma dictFind?_dictSet_self (d : PermDict) (k : String) (v : List String)
    (h : (dictFind? d k).isSome) :
    dictFind? (dictSet d k v) k = some v := by
  induction d with
  | nil => simp [dictFind?] at h
  | cons kv d ih =>
    cases hh : (kv.1 == k) with
    | true => simp [dictSet, dictFind?, List.find?_cons, hh]
    | false =>
      have h' : (dictFind? d k).isSome := by
        simpa [dictFind?, List.find?_cons, hh] using h
      simpa [dictSet, dictFind?, List.find?_cons, hh] using ih h'

/-- Storing under one key does not change reads of a different key. -/
lemma dictFind?_dictSet_ne (d : PermDict) (k k' : String) (v : List String)
    (h : k' ≠ k) :
    dictFind? (dictSet d k v) k' = dictFind? d k' := by
  induction d with
  | nil => simp [dictSet]
  | cons kv d ih =>
    have hkk : (k == k') = false := by
      simp only [beq_eq_false_iff_ne, ne_eq]
      exact fun hc => h hc.symm
    cases hh : (kv.1 == k) with
    | true =>
      have hkv : (kv.1 == k') = false := by
        have he : kv.1 = k := by simpa using hh
        rw [he]
        exact hkk
      simp [dictSet, dictFind?, List.find?_cons, hh, hkv, hkk]
    | false =>
      cases hv : (kv.1 == k') with
      | true => simp [dictSet, dictFind?, List.find?_cons, hh, hv]
      | false => simpa [dictSet, dictFind?, List.find?_cons, hh, hv] using ih

end AuthSys

namespace AuthSys

/-- Reading the guarded key after `ensureKey` always yields the stored list
(empty when the key was absent). -/
lemma dictFind?_ensureKey_self (d : PermDict) (k : String) :
    dictFind? (ensureKey d k) k = some ((dictFind? d k).getD []) := by
  unfold ensureKey
  by_cases hp : (dictFind? d k).isSome
  · rw [if_pos hp]
    obtain ⟨l, hl⟩ := Option.isSome_iff_exists.mp hp
    rw [hl]
    rfl
  · rw [if_neg hp]
    have hn : dictFind? d k = none := Option.not_isSome_iff_eq_none.mp hp
    rw [dictFind?_append_of_none d k k [] hn, hn]
    simp

/-- `ensureKey` leaves every other key unchanged. -/
lemma dictFind?_ensureKey_ne (d : PermDict) (k k' : String) (h : k' ≠ k) :
    dictFind? (ensureKey d k) k' = dictFind? d k' := by
  unfold ensureKey
  by_cases hp : (dictFind? d k).isSome
  · rw [if_pos hp]
  · rw [if_neg hp]
    cases hd : dictFind? d k' with
    | some l => exact dictFind?_append_of_some d [(k, [])] k' l hd
    | none =>
      rw [dictFind?_append_of_none d k k' [] hd]
      have hkk : (k == k') = false := by
        simp only [beq_eq_false_iff_ne, ne_eq]
        exact fun hc => h hc.symm
      rw [hkk]
      simp

/-- `ensureKey` changes no occurrence count. -/
lemma countPerm_ensureKey (d : PermDict) (k rt a : String) :
    countPerm (ensureKey d k) rt a = countPerm d rt a := by
  by_cases hk : rt = k
  · subst hk
    unfold countPerm
    rw [dictFind?_ensureKey_self]
    simp
  · unfold countPerm
    rw [dictFind?_ensureKey_ne d k rt hk]

/-- Effect of one override row on one occurrence count: the targeted
`(resource_type, action)` pair is raised to at least one occurrence when
granted and loses one occurrence when revoked; every other pair is
untouched. -/
lemma countPerm_applyOverride (d : PermDict) (rt a : String)
    (o : String × String × Bool) :
    countPerm (applyOverride d o) rt a =
      if o.1 = rt ∧ o.2.1 = a then
        (if o.2.2 then max (countPerm d rt a) 1 else countPerm d rt a - 1)
      else countPerm d rt a := by
  obtain ⟨rt', a', g⟩ := o
  have hself : dictFind? (ensureKey d rt') rt' = some ((dictFind? d rt').getD []) :=
    dictFind?_ensureKey_self d rt'
  have hsome : (dictFind? (ensureKey d rt') rt').isSome := by rw [hself]; rfl
  have hsetSelf : ∀ v : List String,
      countPerm (dictSet (ensureKey d rt') rt' v) rt' a = v.count a := by
    intro v
    unfold countPerm
    rw [dictFind?_dictSet_self _ _ _ hsome]
    rfl
  have hsetNe : rt' ≠ rt → ∀ v : List String,
      countPerm (dictSet (ensureKey d rt') rt' v) rt a = countPerm d rt a := by
    intro hne v
    unfold countPerm
    rw [dictFind?_dictSet_ne _ _ _ _ (Ne.symm hne),
      dictFind?_ensureKey_ne d rt' rt (Ne.symm hne)]
  unfold applyOverride
  simp only [hself, Option.getD_some]
  by_cases hrt : rt' = rt
  · subst hrt
    have hcount : ((dictFind? d rt').getD []).count a = countPerm d rt' a := rfl
    by_cases ha : a' = a
    · subst ha
      rw [if_pos (And.intro rfl rfl)]
      by_cases hc : ((dictFind? d rt').getD []).contains a'
      · have hmem : a' ∈ (dictFind? d rt').getD [] := by
          rw [← List.elem_iff]; exact hc
        have hpos : 0 < countPerm d rt' a' := by
          rw [← hcount]; exact List.count_pos_iff.mpr hmem
        cases g
        · simp only [Bool.false_eq_true, if_false]
          rw [if_pos hc, hsetSelf, List.count_erase_self, hcount]
        · simp only [eq_self_iff_true, if_true]
          rw [if_pos hc, countPerm_ensureKey]
          omega
      · have hmem : a' ∉ (dictFind? d rt').getD [] := by
          rw [← List.elem_iff]; exact hc
        have hzero : countPerm d rt' a' = 0 := by
          rw [← hcount]; exact List.count_eq_zero.mpr hmem
        cases g
        · simp only [Bool.false_eq_true, if_false]
          rw [if_neg hc, countPerm_ensureKey, hzero]
        · simp only [eq_self_iff_true, if_true]
          rw [if_neg hc, hsetSelf, List.count_append, hcount, hzero]
          simp
    · have hpair : ¬ (rt' = rt' ∧ a' = a) := fun hcc => ha hcc.2
      rw [if_neg hpair]
      by_cases hc : ((dictFind? d rt').getD []).contains a'
      · cases g
        · simp only [Bool.false_eq_true, if_false]
          rw [if_pos hc, hsetSelf, List.count_erase_of_ne (Ne.symm ha), hcount]
        · simp only [eq_self_iff_true, if_true]
          rw [if_pos hc, countPerm_ensureKey]
      · cases g
        · simp only [Bool.false_eq_true, if_false]
          rw [if_neg hc, countPerm_ensureKey]
        · simp only [eq_self_iff_true, if_true]
          rw [if_neg hc, hsetSelf, List.count_append, hcount]
          have hone : List.count a [a'] = 0 := by
            simp [List.count_singleton', Ne.symm ha]
          rw [hone]
          omega
  · have hpair : ¬ (rt' = rt ∧ a' = a) := fun hcc => hrt hcc.1
    rw [if_neg hpair]
    by_cases hc : ((dictFind? d rt').getD []).contains a'
    · cases g
      · simp only [Bool.false_eq_true, if_false]
        rw [if_pos hc, hsetNe hrt]
      · simp only [eq_self_iff_true, if_true]
        rw [if_pos hc, countPerm_ensureKey]
    · cases g
      · simp only [Bool.false_eq_true, if_false]
        rw [if_neg hc, countPerm_ensureKey]
      · simp only [eq_self_iff_true, if_true]
        rw [if_neg hc, hsetNe hrt]

end AuthSys

namespace AuthSys

/-- Occurrence-count characterization of the full override fold: only the
overrides targeting the queried pair act, each granted row raising the count
to at least one and each revoked row removing one occurrence. -/
lemma countPerm_applyUserPermissions (d : PermDict)
    (ov : List (String × String × Bool)) (rt a : String) :
    countPerm (applyUserPermissions d ov) rt a =
      (ov.filter (fun o => o.1 == rt && o.2.1 == a)).foldl
        (fun c o => if o.2.2 then max c 1 else c - 1) (countPerm d rt a) := by
  induction ov generalizing d with
  | nil => rfl
  | cons o ov ih =>
    have hfold : applyUserPermissions d (o :: ov) =
        applyUserPermissions (applyOverride d o) ov := rfl
    rw [hfold, ih]
    have hstep := countPerm_applyOverride d rt a o
    rw [List.filter_cons]
    by_cases ht : o.1 = rt ∧ o.2.1 = a
    · have hb : (o.1 == rt && o.2.1 == a) = true := by simp [ht.1, ht.2]
      rw [if_pos hb, List.foldl_cons, hstep, if_pos ht]
    · have hb : ¬ ((o.1 == rt && o.2.1 == a) = true) := by
        rcases not_and_or.mp ht with h | h <;> simp [h]
      rw [if_neg hb, hstep, if_neg ht]

/-- Membership is positivity of the occurrence count. -/
lemma memPerm_eq (d : PermDict) (rt a : String) :
    memPerm d rt a = decide (0 < countPerm d rt a) := by
  unfold memPerm countPerm
  rw [Bool.eq_iff_iff, decide_eq_true_iff, List.elem_iff, List.count_pos_iff]

/-- Accumulator form of the last targeting override, on the filtered list. -/
lemma lastOverride?_eq_filter (ov : List (String × String × Bool))
    (rt a : String) :
    lastOverride? ov rt a =
      (ov.filter (fun o => o.1 == rt && o.2.1 == a)).foldl
        (fun _ o => some o.2.2) none := by
  unfold lastOverride?
  suffices h : ∀ acc : Option Bool,
      ov.foldl (fun acc o => if o.1 == rt && o.2.1 == a then some o.2.2 else acc) acc =
        (ov.filter (fun o => o.1 == rt && o.2.1 == a)).foldl
          (fun _ o => some o.2.2) acc from h none
  induction ov with
  | nil => intro acc; rfl
  | cons o ov ih =>
    intro acc
    rw [List.filter_cons]
    by_cases hb : (o.1 == rt && o.2.1 == a) = true
    · rw [if_pos hb, List.foldl_cons, List.foldl_cons, if_pos hb]
      exact ih _
    · rw [if_neg hb, List.foldl_cons, if_neg hb]
      exact ih _

/-- Count bound is preserved by the per-override arithmetic step. -/
lemma foldl_step_le_one (F : List (String × String × Bool)) :
    ∀ c : Nat, c ≤ 1 →
      F.foldl (fun c o => if o.2.2 then max c 1 else c - 1) c ≤ 1 := by
  induction F with
  | nil => intro c hc; exact hc
  | cons o F ih =>
    intro c hc
    rw [List.foldl_cons]
    refine ih _ ?_
    cases o.2.2 <;> simp <;> omega

/-- Starting from at most one occurrence, the arithmetic fold realizes
last-override-wins: one occurrence after a final grant, none after a final
revoke, the base count when no override targets the pair. -/
lemma foldl_step_last (F : List (String × String × Bool)) (c : Nat) (hc : c ≤ 1) :
    F.foldl (fun c o => if o.2.2 then max c 1 else c - 1) c =
      match F.foldl (fun _ o => some o.2.2) (none : Option Bool) with
      | some true => 1
      | some false => 0
      | none => c := by
  induction F using List.reverseRecOn with
  | nil => rfl
  | append_singleton F o ih =>
    rw [List.foldl_append, List.foldl_append]
    have hle := foldl_step_le_one F c hc
    simp only [List.foldl_cons, List.foldl_nil]
    cases ho : o.2.2
    · simp only [Bool.false_eq_true, if_false]
      exact Nat.sub_eq_zero_of_le hle
    · simp only [if_true]
      exact Nat.max_eq_right hle

end AuthSys

namespace AuthSys

/-- Claim C4: Effective permission resolution equals the overlay algorithm: over
any role-default map whose action lists are duplicate-free, the resolved set
contains an action on a resource type exactly as the last override targeting
that pair dictates — present after a grant, absent after a revocation — and
falls back to role-default membership when no override targets the pair; in
particular each granted override adds its action (creating the entry if
needed) and each revoking override removes it. -/
theorem resolve_permissions_overlay (d : PermDict)
    (ov : List (String × String × Bool)) (rt a : String)
    (hd : ∀ kv ∈ d, kv.2.Nodup) :
    memPerm (applyUserPermissions d ov) rt a =
      match lastOverride? ov rt a with
      | some g => g
      | none => memPerm d rt a := by
  have hbase : countPerm d rt a ≤ 1 := by
    unfold countPerm
    cases hf : dictFind? d rt with
    | none => simp
    | some l =>
      simp only [Option.getD_some]
      unfold dictFind? at hf
      cases hff : d.find? (fun kv => kv.1 == rt) with
      | none => rw [hff] at hf; cases hf
      | some kv =>
        rw [hff] at hf
        simp only [Option.map_some', Option.some.injEq] at hf
        have hnd : l.Nodup := hf ▸ hd kv (List.mem_of_find?_eq_some hff)
        exact List.nodup_iff_count_le_one.mp hnd a
  rw [memPerm_eq, countPerm_applyUserPermissions, foldl_step_last _ _ hbase,
    lastOverride?_eq_filter]
  cases (ov.filter (fun o => o.1 == rt && o.2.1 == a)).foldl
      (fun _ o => some o.2.2) none with
  | none => rw [memPerm_eq]
  | some g => cases g <;> rfl

/-- Witness for C4 at the concrete instances of the claim: with role default
`{order: [read]}`, the grant `(order, delete, true)` leaves read and adds
delete, while the revocation `(order, read, false)` removes read. -/
theorem resolve_permissions_overlay_witness :
    (["read"] : List String).Nodup ∧
      memPerm (applyUserPermissions [("order", ["read"])]
        [("order", "delete", true)]) "order" "read" = true ∧
      memPerm (applyUserPermissions [("order", ["read"])]
        [("order", "delete", true)]) "order" "delete" = true ∧
      memPerm (applyUserPermissions [("order", ["read"])]
        [("order", "read", false)]) "order" "read" = false :=
  ⟨by decide,
   (resolve_permissions_overlay [("order", ["read"])] [("order", "delete", true)]
      "order" "read" (by decide)).trans (by rfl),
   (resolve_permissions_overlay [("order", ["read"])] [("order", "delete", true)]
      "order" "delete" (by decide)).trans (by rfl),
   (resolve_permissions_overlay [("order", ["read"])] [("order", "read", false)]
      "order" "read" (by decide)).trans (by rfl)⟩

/-- Permuting a list of length at most one reaches only the list itself. -/
lemma perm_eq_of_length_le_one {α : Type} (l₁ l₂ : List α) (h : l₁.Perm l₂)
    (hl : l₁.length ≤ 1) : l₁ = l₂ := by
  match l₁, hl with
  | [], _ => exact (List.perm_nil.mp h.symm).symm
  | [x], _ => exact (List.perm_singleton.mp h.symm).symm
  | x :: y :: l, hl => simp at hl

/-- With pairwise-distinct targeted pairs, at most one override targets any
fixed pair. -/
lemma filter_target_length_le_one (ov : List (String × String × Bool))
    (rt a : String) (hnd : (ov.map (fun o => (o.1, o.2.1))).Nodup) :
    (ov.filter (fun o => o.1 == rt && o.2.1 == a)).length ≤ 1 := by
  induction ov with
  | nil => simp
  | cons o ov ih =>
    rw [List.map_cons, List.nodup_cons] at hnd
    obtain ⟨hnotin, hnd'⟩ := hnd
    rw [List.filter_cons]
    by_cases hb : (o.1 == rt && o.2.1 == a) = true
    · rw [if_pos hb]
      have hrest : ov.filter (fun o => o.1 == rt && o.2.1 == a) = [] := by
        rw [List.filter_eq_nil_iff]
        intro x hx hbx
        apply hnotin
        rw [List.mem_map]
        refine ⟨x, hx, ?_⟩
        have h1 : o.1 = rt ∧ o.2.1 = a := by
          simpa [Bool.and_eq_true] using hb
        have h2 : x.1 = rt ∧ x.2.1 = a := by
          simpa [Bool.and_eq_true] using hbx
        rw [h2.1, h2.2, h1.1, h1.2]
      rw [hrest]
      simp
    · rw [if_neg hb]
      exact ih hnd'

/-- Claim C7: Permission resolution is order-independent: when the overrides
target pairwise-distinct `(resource_type, action)` pairs, applying them in
any order — any permutation of the override list — resolves every membership
query identically. -/
theorem resolve_permissions_order_independent (d : PermDict)
    (ov₁ ov₂ : List (String × String × Bool)) (rt a : String)
    (hnd : (ov₁.map (fun o => (o.1, o.2.1))).Nodup) (hperm : ov₁.Perm ov₂) :
    memPerm (applyUserPermissions d ov₁) rt a =
      memPerm (applyUserPermissions d ov₂) rt a := by
  have hfilter : ov₁.filter (fun o => o.1 == rt && o.2.1 == a) =
      ov₂.filter (fun o => o.1 == rt && o.2.1 == a) :=
    perm_eq_of_length_le_one _ _ (hperm.filter _)
      (filter_target_length_le_one ov₁ rt a hnd)
  rw [memPerm_eq, memPerm_eq, countPerm_applyUserPermissions,
    countPerm_applyUserPermissions, hfilter]

/-- Witness for C7: the two orders of the distinct-pair overrides
`(order, read, false)` and `(order, delete, true)` resolve the read query
identically. -/
theorem resolve_permissions_order_independent_witness :
    ([(("order", "read", false) : String × String × Bool),
        ("order", "delete", true)].map (fun o => (o.1, o.2.1))).Nodup ∧
      memPerm (applyUserPermissions [("order", ["read"])]
        [("order", "read", false), ("order", "delete", true)]) "order" "read" =
        memPerm (applyUserPermissions [("order", ["read"])]
          [("order", "delete", true), ("order", "read", false)]) "order" "read" :=
  ⟨by decide,
   resolve_permissions_order_independent [("order", ["read"])]
     [("order", "read", false), ("order", "delete", true)]
     [("order", "delete", true), ("order", "read", false)] "order" "read"
     (by decide) (List.Perm.swap _ _ _)⟩

end AuthSys

namespace AuthSys

/-- Claim C5: Evaluation of `set_user_permission` at the failing input: the store
holds exactly one override row — user 1's granted override for permission 1 —
and the call made on behalf of user 2 flips user 1's row to
`(granted := false, granted_by := 9)` instead of creating a row for user 2,
because the existing-row lookup matches on `permission_id` alone. -/
theorem set_user_permission_cross_user_mutation :
    dbC5.userPermissions = [⟨1, 1, true, 1⟩] ∧
      PermissionRepository.set_user_permission dbC5 2 "read_order" false 9 =
        .ok { dbC5 with userPermissions := [⟨1, 1, false, 9⟩] } :=
  ⟨by rfl, by rfl⟩

/-- Claim C8, counterexample: The claim requires `revoke` to return `false` on an
already-revoked session; on a store whose only session is already revoked the
UPDATE still matches the row and the call returns `true`. -/
theorem session_revoke_reports_matched_counterexample :
    dbC8.sessions = [⟨"s1", 1, true, 100⟩] ∧
      (UserSessionRepository.revoke dbC8 "s1").1 = true :=
  ⟨by rfl, by rfl⟩

/-- Claim C8, amended: `revoke(session_id)` returns `true` exactly when a session
row with that id exists — matched rows are reported even when the row was
already revoked — it raises no error on a missing or already-revoked session,
every matching row is left revoked, and repeating the call returns the same
answer on the unchanged store (idempotent flip). -/
theorem session_revoke_matched_rows (db : DB) (session_id : String) :
    ((UserSessionRepository.revoke db session_id).1 = true ↔
      ∃ s ∈ db.sessions, s.id = session_id) ∧
    (UserSessionRepository.revoke (UserSessionRepository.revoke db session_id).2
        session_id = UserSessionRepository.revoke db session_id) ∧
    (((UserSessionRepository.revoke db session_id).2.sessions.filter
        (fun s => s.id == session_id)).all (fun s => s.is_revoked) = true) := by
  refine ⟨?_, ?_, ?_⟩
  · simp only [UserSessionRepository.revoke, decide_eq_true_iff]
    rw [List.countP_pos_iff]
    constructor
    · rintro ⟨s, hs, hp⟩
      exact ⟨s, hs, by simpa using hp⟩
    · rintro ⟨s, hs, hp⟩
      exact ⟨s, hs, by simpa using hp⟩
  · simp only [UserSessionRepository.revoke]
    rw [Prod.mk.injEq]
    constructor
    · have hcount : List.countP (fun s => s.id == session_id)
          (db.sessions.map (fun s =>
            if (s.id == session_id) = true then { s with is_revoked := true }
            else s)) =
          List.countP (fun s => s.id == session_id) db.sessions := by
        rw [List.countP_map]
        refine List.countP_congr ?_
        intro s _
        simp only [Function.comp]
        by_cases h : (s.id == session_id) = true
        · rw [if_pos h]
        · rw [if_neg h]
      exact congrArg (fun n => decide (0 < n)) hcount
    · congr 1
      rw [List.map_map]
      refine List.map_congr_left ?_
      intro s _
      simp only [Function.comp]
      by_cases h : (s.id == session_id) = true
      · rw [if_pos h, if_pos (show (s.id == session_id) = true from h)]
      · rw [if_neg h, if_neg h]
  · rw [List.all_eq_true]
    intro s hs
    rw [List.mem_filter] at hs
    obtain ⟨hmem, hid⟩ := hs
    simp only [UserSessionRepository.revoke] at hmem
    rw [List.mem_map] at hmem
    obtain ⟨y, _, rfl⟩ := hmem
    by_cases h : (y.id == session_id) = true
    · rw [if_pos h]
    · rw [if_neg h] at hid ⊢
      exact absurd hid h

/-- Claim C9: Evaluation of `decode_token` at the failing input: a structurally
valid JWT signed with the configured key whose claim set is empty passes the
jose signature and expiry checks, and the pydantic construction of
`TokenPayload` then fails — the resulting `ValidationError` is not a
`jose.exceptions.JWTError`, so it escapes `decode_token` instead of being
translated to `TokenVerificationError`. -/
theorem decode_token_validation_error_escapes :
    joseDecode (.signed [] "k") "k" 0 = .ok [] ∧
      TokenManager.decode_token ⟨"k", "HS256", 20, 1, 1⟩ 0 (.signed [] "k") =
        .error .validationError :=
  ⟨by rfl, by rfl⟩

/-- Claim C10, counterexample: A caller with an empty permission set deleting the
admin user receives `InsufficientPermissions`, not the `AdminDeletion`
conflict the claim promises regardless of permissions. -/
theorem delete_admin_user_counterexample :
    DeleteUserUseCase.call dbC10 1 ⟨[]⟩ = .error .insufficientPermissions ∧
      (Except.error .insufficientPermissions : Except PyExc DB) ≠
        .error .adminDeletion :=
  ⟨by rfl, by simp⟩

/-- Claim C10, amended: Deleting a user whose role is "admin" always fails and
never reaches the store mutation — with `AdminDeletion` when the caller holds
the `user`:`delete` permission, and with `InsufficientPermissions` (raised
before the admin check) otherwise; in both cases no updated store is
produced, so the target's active flag is unchanged. -/
theorem delete_admin_user_always_fails (db : DB) (user_id : Int)
    (permissions : UserPermissions) (u : UserEntity) (r : UserRoleEntity)
    (hu : db.users.find? (fun v => v.id == user_id) = some u)
    (hr : db.roles.find? (fun v => v.id == u.role_id) = some r)
    (hadmin : r.name = "admin") :
    DeleteUserUseCase.call db user_id permissions =
      .error (if permissions.has_permission "user" PermissionAction.delete
        then .adminDeletion else .insufficientPermissions) := by
  unfold DeleteUserUseCase.call
  by_cases hp : permissions.has_permission "user" PermissionAction.delete = true
  · rw [if_pos hp, if_pos hp]
    unfold UserRepository.mark_as_inactive UserRepository.get_by_id
    rw [hu]
    simp only []
    rw [hr]
    simp only []
    rw [if_pos (by simp [hadmin])]
  · rw [if_neg hp, if_neg hp]

/-- Witness for the amended C10 theorem: at the concrete admin store, a
caller holding user:delete gets the conflict and a caller without it gets the
permission denial. -/
theorem delete_admin_user_always_fails_witness :
    DeleteUserUseCase.call dbC10 1 ⟨[⟨"user", PermissionAction.delete⟩]⟩ =
        .error .adminDeletion ∧
      DeleteUserUseCase.call dbC10 1 ⟨[]⟩ = .error .insufficientPermissions :=
  ⟨(delete_admin_user_always_fails dbC10 1 ⟨[⟨"user", PermissionAction.delete⟩]⟩
      ⟨1, true, 1⟩ ⟨1, "admin"⟩ (by rfl) (by rfl) rfl).trans (by rfl),
   (delete_admin_user_always_fails dbC10 1 ⟨[]⟩
      ⟨1, true, 1⟩ ⟨1, "admin"⟩ (by rfl) (by rfl) rfl).trans (by rfl)⟩

end AuthSys

namespace AuthSys

/-- Round trip of the codec: a payload encoded with the configured key decodes
back to itself at any time not later than its expiry. -/
lemma decode_token_encodeJwt (settings : JWTSettings) (now2 : Int)
    (p : TokenPayload) (hexp : now2 ≤ p.exp) :
    TokenManager.decode_token settings now2 (TokenManager.encodeJwt settings p) =
      .ok p := by
  obtain ⟨sub, sid, iat, exp, jti, role, purpose, fp⟩ := p
  simp only at hexp
  have hlt : ¬ (exp < now2) := by omega
  unfold TokenManager.decode_token TokenManager.encodeJwt joseDecode
  cases sid <;> cases jti <;> cases role <;> cases fp <;> cases purpose <;>
    simp [TokenPayload.to_dict, TokenPayload.fromClaims, TokenPurpose.value,
      reqStr?, reqInt?, optStr?, purposeField?, List.lookup, hlt]

end AuthSys

namespace AuthSys

/-- Claim C6: Token purpose isolation: `verify_access_token` returns a payload
only when the decoded purpose is `access` and turns every decoded payload of
any other purpose into `TokenVerificationError`; symmetrically
`verify_email_confirmation_token` rejects every decoded payload whose purpose
is not `email_confirmation`.  In particular every unexpired
email-confirmation token is rejected by `verify_access_token`, and every
unexpired access token is rejected by `verify_email_confirmation_token`. -/
theorem token_purpose_isolation (settings : JWTSettings) (now : Int) (w : Wire) :
    (∀ p, TokenManager.verify_access_token settings now w = .ok p →
      p.purpose = .access) ∧
    (∀ p, TokenManager.decode_token settings now w = .ok p →
      p.purpose ≠ .access →
      TokenManager.verify_access_token settings now w =
        .error .tokenVerificationError) ∧
    (∀ p, TokenManager.decode_token settings now w = .ok p →
      p.purpose ≠ .email_confirmation →
      TokenManager.verify_email_confirmation_token settings now w =
        .error .tokenVerificationError) ∧
    (∀ user_id now2, now2 ≤ now + settings.email_confirmation_ttl * 86400 →
      TokenManager.verify_access_token settings now2
        (TokenManager.create_email_confirmation_token settings now user_id) =
        .error .tokenVerificationError) ∧
    (∀ user_id user_role session_id jti now2,
      now2 ≤ now + settings.access_token_ttl →
      TokenManager.verify_email_confirmation_token settings now2
        (TokenManager.encodeJwt settings (TokenManager.make_access_token_payload
          settings now user_id user_role session_id jti)) =
        .error .tokenVerificationError) := by
  refine ⟨?_, ?_, ?_, ?_, ?_⟩
  · intro p h
    unfold TokenManager.verify_access_token at h
    cases hd : TokenManager.decode_token settings now w with
    | error e => rw [hd] at h; cases h
    | ok q =>
      rw [hd] at h
      simp only [] at h
      by_cases hq : q.purpose = TokenPurpose.access
      · rw [if_neg (not_not.mpr hq)] at h
        cases h
        exact hq
      · rw [if_pos hq] at h
        cases h
  · intro p hd hne
    unfold TokenManager.verify_access_token
    rw [hd]
    simp only []
    rw [if_pos hne]
  · intro p hd hne
    unfold TokenManager.verify_email_confirmation_token
    rw [hd]
    simp only []
    rw [if_pos hne]
  · intro user_id now2 hle
    unfold TokenManager.verify_access_token
    rw [TokenManager.create_email_confirmation_token]
    rw [decode_token_encodeJwt settings now2 _ hle]
    simp only []
    rw [if_pos (by simp)]
  · intro user_id user_role session_id jti now2 hle
    unfold TokenManager.verify_email_confirmation_token
    rw [TokenManager.make_access_token_payload]
    rw [decode_token_encodeJwt settings now2 _ hle]
    simp only []
    rw [if_pos (by simp)]

/-- Witness for C6: at the concrete settings, the email-confirmation token
for user 7 is rejected by access verification, and an access token is
rejected by email-confirmation verification. -/
theorem token_purpose_isolation_witness :
    TokenManager.verify_access_token stC6 0
        (TokenManager.create_email_confirmation_token stC6 0 7) =
      .error .tokenVerificationError ∧
    TokenManager.verify_email_confirmation_token stC6 0
        (TokenManager.encodeJwt stC6 (TokenManager.make_access_token_payload
          stC6 0 1 "user" "s1" "j")) =
      .error .tokenVerificationError :=
  ⟨(token_purpose_isolation stC6 0
      (TokenManager.create_email_confirmation_token stC6 0 7)).2.2.2.1 7 0
      (by decide),
   (token_purpose_isolation stC6 0
      (TokenManager.encodeJwt stC6 (TokenManager.make_access_token_payload
        stC6 0 1 "user" "s1" "j"))).2.2.2.2 1 "user" "s1" "j" 0 (by decide)⟩

end AuthSys
